import Mathlib

/-!
Verification of the halo (ghost-region) exchange subsystem of the ESPResSo
lattice code, as declared in `src/core/grid_based_algorithms/halo.hpp`.

The repository snapshot contains only the header: the struct definitions
(`Fieldtype`, `HaloInfo`, `HaloCommunicator`), the communication-kind tags, and
the declarations of `halo_create_field_vector`, `halo_create_field_hvector`,
`prepare_halo_communication`, `release_halo_communication` and
`halo_communication`.  The structures below are translated from the header;
the function bodies (which live in the missing `halo.cpp`, together with the
`Lattice` geometry class of the missing `lattice.hpp`) are modelled from the
specification document, as marked in each doc comment.

C `int` fields are modelled as `Int`; the `unsigned long` offsets are modelled
as `Nat`; byte addresses are `Int`.
-/

namespace Halo

/-- Error taxonomy of the spec (section 7): `InvalidLayout` for malformed
composition parameters, `InvalidGeometry` for geometry that cannot carry the
requested halo. -/
inductive HaloError where
  | InvalidLayout
  | InvalidGeometry
deriving DecidableEq, Repr

/-- Layout of the lattice data, translated from `struct Fieldtype` in
`halo.hpp`: count of subtypes, displacements, lengths, total extent including
gaps, vector-composition parameters (`vblocks`, `vstride`, `vskip`, `vflag`)
and an optional owned sub-descriptor (the `Fieldtype *subtype` pointer, `none`
for the null pointer). -/
inductive Fieldtype where
  | mk (count : Int) (disps : List Int) (lengths : List Int) (extent : Int)
      (vblocks : Int) (vstride : Int) (vskip : Int) (vflag : Bool)
      (subtype : Option Fieldtype)

def Fieldtype.count : Fieldtype → Int
  | .mk c _ _ _ _ _ _ _ _ => c

def Fieldtype.disps : Fieldtype → List Int
  | .mk _ d _ _ _ _ _ _ _ => d

def Fieldtype.lengths : Fieldtype → List Int
  | .mk _ _ l _ _ _ _ _ _ => l

def Fieldtype.extent : Fieldtype → Int
  | .mk _ _ _ e _ _ _ _ _ => e

def Fieldtype.vblocks : Fieldtype → Int
  | .mk _ _ _ _ b _ _ _ _ => b

def Fieldtype.vstride : Fieldtype → Int
  | .mk _ _ _ _ _ s _ _ _ => s

def Fieldtype.vskip : Fieldtype → Int
  | .mk _ _ _ _ _ _ k _ _ => k

def Fieldtype.vflag : Fieldtype → Bool
  | .mk _ _ _ _ _ _ _ f _ => f

def Fieldtype.subtype : Fieldtype → Option Fieldtype
  | .mk _ _ _ _ _ _ _ _ s => s

/-- Modelled from the spec: the predefined base descriptor `fieldtype_double`
(declared `extern` in the header, defined in the missing `halo.cpp`): one
(displacement, length) pair covering the eight bytes of a double, extent eight,
no vector composition, null subtype. -/
def fieldtype_double : Fieldtype :=
  .mk 1 [0] [8] 8 0 0 0 false none

/-- Payload of a contiguous vector composition (section 4.1): `vstride` is in
units of the sub-descriptor's extent (`vflag = true`), the extent is
block-count times stride in those units, displacements and lengths are
inherited from the sub-descriptor. -/
def vectorRaw (vb vs vk : Int) (sub : Fieldtype) : Fieldtype :=
  .mk sub.count sub.disps sub.lengths (vb * vs * sub.extent) vb vs vk true (some sub)

/-- Payload of an absolute-stride vector composition (section 4.1): `vskip` is
a byte displacement between strides (`vflag = false`), the extent is derived
directly from the explicit byte stride. -/
def hvectorRaw (vb vs vk : Int) (sub : Fieldtype) : Fieldtype :=
  .mk sub.count sub.disps sub.lengths (vb * vk) vb vs vk false (some sub)

/-- Modelled from the spec: `halo_create_field_vector` of the missing
`halo.cpp`.  Contiguous vector composition; fails with `InvalidLayout` when
the block count or the stride is non-positive or the sub-descriptor pointer is
null (section 4.1). -/
def halo_create_field_vector (vb vs vk : Int) (oldtype : Option Fieldtype) :
    Except HaloError Fieldtype :=
  match oldtype with
  | none => .error .InvalidLayout
  | some sub =>
      if vb ≤ 0 ∨ vs ≤ 0 then .error .InvalidLayout
      else .ok (vectorRaw vb vs vk sub)

/-- Modelled from the spec: `halo_create_field_hvector` of the missing
`halo.cpp`.  Absolute-stride vector composition with the same validation. -/
def halo_create_field_hvector (vb vs vk : Int) (oldtype : Option Fieldtype) :
    Except HaloError Fieldtype :=
  match oldtype with
  | none => .error .InvalidLayout
  | some sub =>
      if vb ≤ 0 ∨ vs ≤ 0 then .error .InvalidLayout
      else .ok (hvectorRaw vb vs vk sub)

/-- The extent invariant of section 3: the extent bounds the bytes covered by
the (displacement, length) pairs. -/
def covOK (ft : Fieldtype) : Prop :=
  ft.lengths.sum ≤ ft.extent

instance (ft : Fieldtype) : Decidable (covOK ft) := by
  unfold covOK; infer_instance

/-- Modelled from the spec: the byte addresses touched when walking a
descriptor placed at byte offset `off`, as `halo_dtcopy` of the missing
`halo.cpp` walks it (section 4.1).  A leaf touches the bytes of its
(displacement, length) pairs; a composed node walks `vblocks` blocks of
`vstride` consecutive sub-descriptors, blocks separated by `vskip`
sub-extents (`vflag = true`) or `vskip` bytes (`vflag = false`). -/
def addrList : Fieldtype → Int → List Int
  | .mk _ ds ls _ _ _ _ _ none, off =>
      (ds.zip ls).flatMap fun p =>
        (List.range p.2.toNat).map fun (k : Nat) => off + p.1 + (k : Int)
  | .mk _ _ _ _ vb vs vk vf (some sub), off =>
      (List.range vb.toNat).flatMap fun (b : Nat) =>
        (List.range vs.toNat).flatMap fun (s : Nat) =>
          addrList sub (off + (b : Int) * (if vf then vk * sub.extent else vk)
            + (s : Int) * sub.extent)

/-- The byte offsets at which the immediate sub-descriptor instances of a
composed descriptor are placed (one offset, the descriptor's own, for a
leaf).  One layer of the walk of `addrList`. -/
def blockInstances : Fieldtype → Int → List Int
  | .mk _ _ _ _ _ _ _ _ none, off => [off]
  | .mk _ _ _ _ vb vs vk vf (some sub), off =>
      (List.range vb.toNat).flatMap fun (b : Nat) =>
        (List.range vs.toNat).map fun (s : Nat) =>
          off + (b : Int) * (if vf then vk * sub.extent else vk)
            + (s : Int) * sub.extent

/-- Modelled from the spec: the lattice geometry consumed by the plan builder
(the `Lattice` class of the missing `lattice.hpp`): local and global extents
per dimension, halo width, periodicity flags (sections 4.3 and 6). -/
structure Lattice where
  grid : Fin 3 → Nat
  global_grid : Fin 3 → Nat
  halo_size : Nat
  periodic : Fin 3 → Bool

/-- Extended (halo-padded) local extent per dimension. -/
def hgrid (lat : Lattice) (k : Fin 3) : Nat :=
  lat.grid k + 2 * lat.halo_size

/-- Number of sites of the extended local buffer. -/
def totalSites (lat : Lattice) : Nat :=
  hgrid lat 0 * hgrid lat 1 * hgrid lat 2

/-- Product of the extended extents of the dimensions below `d`: the distance,
in sites, between consecutive planes perpendicular to `d` (dimension 0 varies
fastest). -/
def strideOf (lat : Lattice) : Fin 3 → Nat
  | ⟨0, _⟩ => 1
  | ⟨1, _⟩ => hgrid lat 0
  | ⟨2, _⟩ => hgrid lat 0 * hgrid lat 1
  | ⟨n + 3, h⟩ => absurd h (by omega)

/-- Product of the extended extents of the dimensions above `d`: the number of
contiguous runs a plane perpendicular to `d` decomposes into. -/
def nbOf (lat : Lattice) : Fin 3 → Nat
  | ⟨0, _⟩ => hgrid lat 1 * hgrid lat 2
  | ⟨1, _⟩ => hgrid lat 2
  | ⟨2, _⟩ => 1
  | ⟨n + 3, h⟩ => absurd h (by omega)

/-- Coordinate along dimension `d` of the site with linear index `s` in the
extended buffer. -/
def siteCoord (lat : Lattice) (d : Fin 3) (s : Nat) : Nat :=
  s / strideOf lat d % hgrid lat d

/-- The site with linear index `s` lies in the slab of `w` planes
perpendicular to `d` starting at plane `lo` of the extended buffer. -/
def inSlabSite (lat : Lattice) (d : Fin 3) (lo w : Nat) (s : Nat) : Prop :=
  s < totalSites lat ∧ lo ≤ siteCoord lat d s ∧ siteCoord lat d s < lo + w

instance (lat : Lattice) (d : Fin 3) (lo w s : Nat) :
    Decidable (inSlabSite lat d lo w s) := by
  unfold inSlabSite; infer_instance

/-- Byte address `a` belongs to the slab of `w` planes perpendicular to `d`
starting at plane `lo`, for sites of byte extent `ext`. -/
def inSlabByte (lat : Lattice) (d : Fin 3) (lo w : Nat) (ext : Int) (a : Int) : Prop :=
  ∃ s : Nat, inSlabSite lat d lo w s ∧ ext * s ≤ a ∧ a < ext * s + ext

/-- Pointwise update of a coordinate vector. -/
def setAt (f : Fin 3 → Nat) (d : Fin 3) (v : Nat) : Fin 3 → Nat :=
  fun k => if k = d then v else f k

/-- Modelled from the spec: the neighbor of the calling process along axis `d`
through face `lr` (0 low, 1 high) of the process grid, wrapping around when
the axis is periodic, `none` when no neighbor exists (section 4.3; the
neighbor computation lives in the missing geometry code). -/
def neighbor_coord (lat : Lattice) (node_grid node_pos : Fin 3 → Nat)
    (d : Fin 3) (lr : Fin 2) : Option Nat :=
  if lr = 0 then
    if node_pos d = 0 then
      if lat.periodic d then some (node_grid d - 1) else none
    else some (node_pos d - 1)
  else
    if node_pos d + 1 = node_grid d then
      if lat.periodic d then some 0 else none
    else some (node_pos d + 1)

/-- Linearized rank of a process-grid position (dimension 0 fastest). -/
def linear_rank (node_grid p : Fin 3 → Nat) : Nat :=
  p 0 + node_grid 0 * (p 1 + node_grid 1 * p 2)

/-- Tag for local exchange of halo regions on the same processor
(`halo.hpp`). -/
def HALO_LOCL : Int := 0

/-- Tag for halo exchange between different processors (`halo.hpp`). -/
def HALO_SENDRECV : Int := 1

/-- Tag for halo send only (`halo.hpp`). -/
def HALO_SEND : Int := 2

/-- Tag for halo receive only (`halo.hpp`). -/
def HALO_RECV : Int := 3

/-- Tag for halo open boundary (`halo.hpp`). -/
def HALO_OPEN : Int := 4

/-- Structure describing a halo region, translated from `HaloInfo` in
`halo.hpp`: communication kind, source and destination processors, send and
receive buffer offsets, owned layout descriptor.  The `MPI_Datatype` transport
handle is an opaque mirror of `fieldtype` and is not modelled separately. -/
structure HaloInfo where
  type : Int
  source_node : Nat
  dest_node : Nat
  s_offset : Nat
  r_offset : Nat
  fieldtype : Fieldtype

instance : Inhabited HaloInfo :=
  ⟨⟨HALO_OPEN, 0, 0, 0, 0, fieldtype_double⟩⟩

/-- Structure holding a set of `HaloInfo` comprising a parallelization scheme,
translated from `class HaloCommunicator` in `halo.hpp`. -/
structure HaloCommunicator where
  num : Int
  halo_info : List HaloInfo

/-- The constructor `HaloCommunicator(int num) : num(num)` of `halo.hpp`:
stores `num` and leaves the `halo_info` vector default-constructed, hence
empty. -/
def HaloCommunicator.construct (n : Int) : HaloCommunicator :=
  ⟨n, []⟩

/-- Modelled from the spec: one Transfer Descriptor of the plan builder of the
missing `halo.cpp` (section 4.3), for axis `d` and face `lr`.  The layout is
an absolute-stride slab of `halo_size` planes perpendicular to `d`.  If the
neighbor through the face is the process itself (periodic axis of process-grid
extent one) the entry is a local copy from the interior planes on the opposite
side into this face's halo planes; a distinct neighbor gives a fused
send-and-receive (interior planes near the face out, this face's halo planes
in, `HALO_SENDRECV` of the header); no neighbor gives an open boundary. -/
def buildEntry (lat : Lattice) (ft : Fieldtype) (node_grid node_pos : Fin 3 → Nat)
    (d : Fin 3) (lr : Fin 2) : HaloInfo :=
  let w := lat.halo_size
  let stride := strideOf lat d
  let ftype := hvectorRaw (nbOf lat d : Int) ((w * stride : Nat) : Int)
      (((stride * hgrid lat d : Nat) : Int) * ft.extent) ft
  let haloLo : Nat := if lr = 0 then 0 else w + lat.grid d
  let oppLo : Nat := if lr = 0 then lat.grid d else w
  let nearLo : Nat := if lr = 0 then w else lat.grid d
  let me := linear_rank node_grid node_pos
  let r_off := ft.extent.toNat * (stride * haloLo)
  match neighbor_coord lat node_grid node_pos d lr with
  | none => ⟨HALO_OPEN, me, me, ft.extent.toNat * (stride * nearLo), r_off, ftype⟩
  | some q =>
      if q = node_pos d then
        ⟨HALO_LOCL, me, me, ft.extent.toNat * (stride * oppLo), r_off, ftype⟩
      else
        let nbr := linear_rank node_grid (setAt node_pos d q)
        ⟨HALO_SENDRECV, nbr, nbr, ft.extent.toNat * (stride * nearLo), r_off, ftype⟩

/-- Modelled from the spec: the build-time geometry validation of section 4.3,
checked before any transfer is assembled: on every axis the local extent must
carry the halo width and the process grid must evenly divide the global
extent. -/
def geometry_ok (lat : Lattice) (node_grid : Fin 3 → Nat) : Bool :=
  decide (∀ d : Fin 3,
    lat.halo_size ≤ lat.grid d ∧ lat.global_grid d % node_grid d = 0)

/-- The six Transfer Descriptors in dimension-major, face-minor order
(section 3). -/
def buildPlan (lat : Lattice) (ft : Fieldtype) (node_grid node_pos : Fin 3 → Nat) :
    HaloCommunicator :=
  ⟨6, (List.finRange 3).flatMap fun d =>
      (List.finRange 2).map fun lr => buildEntry lat ft node_grid node_pos d lr⟩

/-- Modelled from the spec: `prepare_halo_communication` of the missing
`halo.cpp` (sections 4.3 and 7).  Validates the geometry first and only then
assembles the six-entry plan; on failure no plan is produced. -/
def prepare_halo_communication (hc : HaloCommunicator) (lat : Lattice)
    (ft : Fieldtype) (node_grid node_pos : Fin 3 → Nat) :
    Except HaloError HaloCommunicator :=
  if geometry_ok lat node_grid then .ok (buildPlan lat ft node_grid node_pos)
  else .error .InvalidGeometry

/-- Modelled from the spec: `release_halo_communication` of the missing
`halo.cpp` (section 4.5).  Returns the released plan together with the list of
layout descriptors freed by this call; an already-released or never-built plan
owns nothing, so the second component is empty for it. -/
def release_halo_communication (hc : HaloCommunicator) :
    HaloCommunicator × List Fieldtype :=
  (⟨0, []⟩, hc.halo_info.map fun e => e.fieldtype)

/-- Single-point overwrite of a byte buffer. -/
def upd (b : Int → Int) (a v : Int) : Int → Int :=
  fun x => if x = a then v else b x

/-- Modelled from the spec: the effect of one Transfer Descriptor on the local
byte buffer (section 4.4).  A local copy moves the walked bytes from the send
offsets to the receive offsets; a transfer that receives overwrites its
receive region with transport-delivered bytes `inb`; a pure send and an open
boundary write nothing locally. -/
def applyEntry (b : Int → Int) (inb : Int → Int) (e : HaloInfo) : Int → Int :=
  if e.type = HALO_LOCL then
    ((addrList e.fieldtype (e.r_offset : Int)).zip
        (addrList e.fieldtype (e.s_offset : Int))).foldl
      (fun acc pr => upd acc pr.1 (b pr.2)) b
  else if e.type = HALO_SENDRECV ∨ e.type = HALO_RECV then
    (addrList e.fieldtype (e.r_offset : Int)).foldl
      (fun acc a => upd acc a (inb a)) b
  else b

/-- Modelled from the spec: `halo_communication` of the missing `halo.cpp`
(section 4.4).  Executes the plan entries in plan order against the local
buffer; `inbound i` gives the bytes delivered by the transport for entry
`i`. -/
def halo_communication (hc : HaloCommunicator) (inbound : Nat → Int → Int)
    (buf : Int → Int) : Int → Int :=
  (hc.halo_info.enum).foldl (fun b pr => applyEntry b (inbound pr.1) pr.2) buf

/-- The byte addresses an entry may overwrite: its receive region, unless the
entry is an open boundary or a pure send. -/
def destWrites (e : HaloInfo) : List Int :=
  if e.type = HALO_LOCL ∨ e.type = HALO_SENDRECV ∨ e.type = HALO_RECV then
    addrList e.fieldtype (e.r_offset : Int)
  else []

/-- All byte addresses a plan execution may overwrite. -/
def writeAddrs (hc : HaloCommunicator) : List Int :=
  hc.halo_info.flatMap destWrites

/-! ### Concrete configurations used to instantiate the theorems -/

/-- A 2-by-2-by-4 periodic lattice split into two processes along dimension 2,
halo width one: local extents 2-2-2. -/
def latW : Lattice := ⟨![2, 2, 2], ![2, 2, 4], 1, ![true, true, true]⟩

def ngW : Fin 3 → Nat := ![1, 1, 2]

def npW : Fin 3 → Nat := ![0, 0, 0]

/-- The end-to-end scenario of section 8: a 1-by-1-by-4 lattice, periodic on
all axes, split into two processes along dimension 2, halo width one, scalar
double field; local extents 1-1-2. -/
def lat7 : Lattice := ⟨![1, 1, 2], ![1, 1, 4], 1, ![true, true, true]⟩

def ng7 : Fin 3 → Nat := ![1, 1, 2]

/-- The plan built for process 0 of the section-8 scenario. -/
def prep7 : Except HaloError HaloCommunicator :=
  prepare_halo_communication (HaloCommunicator.construct 0) lat7
    fieldtype_double ng7 ![0, 0, 0]

/-- A single-process lattice of extent one per dimension, halo width one,
periodic only along dimension 0: dimensions 1 and 2 are neither periodic nor
split. -/
def latB : Lattice := ⟨![1, 1, 1], ![1, 1, 1], 1, ![true, false, false]⟩

def ngB : Fin 3 → Nat := ![1, 1, 1]

/-- The plan built for the single process of the `latB` configuration. -/
def prepB : Except HaloError HaloCommunicator :=
  prepare_halo_communication (HaloCommunicator.construct 0) latB
    fieldtype_double ngB ![0, 0, 0]

/-- A lattice whose dimension-0 local extent cannot carry the halo. -/
def latBad : Lattice := ⟨![0, 1, 1], ![1, 1, 1], 1, ![true, true, true]⟩

/-! ### Basic consequences of the builder definitions -/

lemma prepare_ok_elim {hc hc' : HaloCommunicator} {lat : Lattice} {ft : Fieldtype}
    {ng np : Fin 3 → Nat}
    (h : prepare_halo_communication hc lat ft ng np = .ok hc') :
    hc' = buildPlan lat ft ng np := by
  unfold prepare_halo_communication at h
  split at h
  · exact (Except.ok.injEq _ _).mp h.symm
  · exact absurd h (by simp)

lemma buildPlan_halo_info (lat : Lattice) (ft : Fieldtype) (ng np : Fin 3 → Nat) :
    (buildPlan lat ft ng np).halo_info =
      [buildEntry lat ft ng np 0 0, buildEntry lat ft ng np 0 1,
       buildEntry lat ft ng np 1 0, buildEntry lat ft ng np 1 1,
       buildEntry lat ft ng np 2 0, buildEntry lat ft ng np 2 1] := by
  rfl

lemma buildPlan_getD (lat : Lattice) (ft : Fieldtype) (ng np : Fin 3 → Nat)
    (d : Fin 3) (lr : Fin 2) :
    (buildPlan lat ft ng np).halo_info.getD (2 * d.val + lr.val) default =
      buildEntry lat ft ng np d lr := by
  fin_cases d <;> fin_cases lr <;> rfl

/-- On a periodic axis of process-grid extent one, the face entry is the local
copy from the opposite interior slab into the face's halo slab. -/
lemma buildEntry_locl (lat : Lattice) (ft : Fieldtype) (ng np : Fin 3 → Nat)
    (d : Fin 3) (lr : Fin 2) (hper : lat.periodic d = true) (hone : ng d = 1)
    (hpos : np d = 0) :
    buildEntry lat ft ng np d lr =
      ⟨HALO_LOCL, linear_rank ng np, linear_rank ng np,
        ft.extent.toNat * (strideOf lat d * (if lr = 0 then lat.grid d else lat.halo_size)),
        ft.extent.toNat * (strideOf lat d * (if lr = 0 then 0 else lat.halo_size + lat.grid d)),
        hvectorRaw (nbOf lat d : Int) ((lat.halo_size * strideOf lat d : Nat) : Int)
          (((strideOf lat d * hgrid lat d : Nat) : Int) * ft.extent) ft⟩ := by
  unfold buildEntry neighbor_coord
  fin_cases lr <;> simp [hper, hone, hpos]

/-- On a non-periodic axis of process-grid extent one, the face entry is an
open boundary. -/
lemma buildEntry_open (lat : Lattice) (ft : Fieldtype) (ng np : Fin 3 → Nat)
    (d : Fin 3) (lr : Fin 2) (hper : lat.periodic d = false) (hone : ng d = 1)
    (hpos : np d = 0) :
    (buildEntry lat ft ng np d lr).type = HALO_OPEN := by
  unfold buildEntry neighbor_coord
  fin_cases lr <;> simp [hper, hone, hpos]

/-! ### Slab characterization of the built layouts -/

lemma strideOf_pos (lat : Lattice) (d : Fin 3) (hw : 1 ≤ lat.halo_size) :
    0 < strideOf lat d := by
  have h0 : 0 < hgrid lat 0 := by unfold hgrid; omega
  have h1 : 0 < hgrid lat 1 := by unfold hgrid; omega
  fin_cases d
  · exact Nat.one_pos
  · exact h0
  · exact Nat.mul_pos h0 h1

lemma strideOf_mul (lat : Lattice) (d : Fin 3) :
    strideOf lat d * hgrid lat d * nbOf lat d = totalSites lat := by
  fin_cases d <;> simp [strideOf, nbOf, totalSites] <;> ring

/-- Arithmetic core: the block-and-stride enumeration of an absolute-stride
slab layout covers exactly the multiples of `ext` at the linear site indices
whose coordinate along the sliced axis lies in the requested plane range. -/
lemma slab_char (stride Hd nb w lo : Nat) (ext a : Int)
    (hstride : 0 < stride) (hlo : lo + w ≤ Hd) (hext : 0 < ext) :
    (∃ b : Nat, b < nb ∧ ∃ s : Nat, s < w * stride ∧
        a = ext * ((stride * lo : Nat) : Int)
          + (b : Int) * (((stride * Hd : Nat) : Int) * ext)
          + (s : Int) * ext)
    ↔ ∃ sIdx : Nat, (sIdx < stride * Hd * nb ∧ lo ≤ sIdx / stride % Hd ∧
        sIdx / stride % Hd < lo + w) ∧ a = ext * (sIdx : Int) := by
  constructor
  · rintro ⟨b, hb, s, hs, rfl⟩
    have hslt : s / stride < w := (Nat.div_lt_iff_lt_mul hstride).mpr hs
    have hdiv : (stride * (lo + Hd * b) + s) / stride = lo + Hd * b + s / stride :=
      Nat.mul_add_div hstride _ _
    have hcoord : (stride * (lo + Hd * b) + s) / stride % Hd = lo + s / stride := by
      rw [hdiv]
      have h7 : lo + Hd * b + s / stride = (lo + s / stride) + b * Hd := by ring
      rw [h7, Nat.add_mul_mod_self_right]
      exact Nat.mod_eq_of_lt (by omega)
    refine ⟨stride * (lo + Hd * b) + s, ⟨?_, ?_, ?_⟩, ?_⟩
    · have h2 : stride * (lo + w) ≤ stride * Hd := Nat.mul_le_mul_left stride hlo
      have h3 : stride * (lo + w) = stride * lo + w * stride := by ring
      have h4 : stride * Hd * (b + 1) ≤ stride * Hd * nb := Nat.mul_le_mul_left _ hb
      have h5 : stride * (lo + Hd * b) + s = stride * Hd * b + (stride * lo + s) := by
        ring
      have h6 : stride * Hd * (b + 1) = stride * Hd * b + stride * Hd := by ring
      omega
    · rw [hcoord]
      exact Nat.le_add_right _ _
    · rw [hcoord]
      exact Nat.add_lt_add_left hslt lo
    · push_cast
      ring
  · rintro ⟨sIdx, ⟨hbnd, hlo1, hhi1⟩, rfl⟩
    have hw1 : 0 < w := by omega
    have hHd : 0 < Hd := by omega
    have hP : 0 < stride * Hd := Nat.mul_pos hstride hHd
    set q := sIdx / (stride * Hd) with hq
    set r := sIdx % (stride * Hd) with hr
    have hdm : stride * Hd * q + r = sIdx := Nat.div_add_mod sIdx (stride * Hd)
    have hrlt : r < stride * Hd := Nat.mod_lt _ hP
    have hb : q < nb := by
      rw [hq]
      apply (Nat.div_lt_iff_lt_mul hP).mpr
      have hcomm : stride * Hd * nb = nb * (stride * Hd) := by ring
      omega
    have h8 : sIdx = stride * (Hd * q) + r := by
      have hassoc : stride * Hd * q = stride * (Hd * q) := by ring
      omega
    have hdiv2 : sIdx / stride = Hd * q + r / stride := by
      conv_lhs => rw [h8]
      rw [Nat.mul_add_div hstride]
    have hrdiv : r / stride < Hd := by
      apply (Nat.div_lt_iff_lt_mul hstride).mpr
      have hcomm2 : stride * Hd = Hd * stride := by ring
      omega
    have hcoord : sIdx / stride % Hd = r / stride := by
      rw [hdiv2]
      have h9 : Hd * q + r / stride = r / stride + q * Hd := by ring
      rw [h9, Nat.add_mul_mod_self_right]
      exact Nat.mod_eq_of_lt hrdiv
    rw [hcoord] at hlo1 hhi1
    have hsl : lo * stride ≤ r := (Nat.le_div_iff_mul_le hstride).mp hlo1
    have hrhi : r < (lo + w) * stride := (Nat.div_lt_iff_lt_mul hstride).mp hhi1
    obtain ⟨s, hseq⟩ : ∃ s, r = lo * stride + s := ⟨r - lo * stride, by omega⟩
    refine ⟨q, hb, s, ?_, ?_⟩
    · have h10 : (lo + w) * stride = lo * stride + w * stride := by ring
      omega
    · have h11 : sIdx = stride * lo + stride * Hd * q + s := by
        have h12 : stride * lo = lo * stride := by ring
        omega
      rw [h11]
      push_cast
      ring

/-- Membership in the one-layer instance walk of an absolute-stride
composition. -/
lemma mem_blockInstances_hvector (nb vs : Nat) (vk : Int) (ft : Fieldtype)
    (off a : Int) :
    a ∈ blockInstances (hvectorRaw (nb : Int) ((vs : Nat) : Int) vk ft) off ↔
      ∃ b : Nat, b < nb ∧ ∃ s : Nat, s < vs ∧
        a = off + (b : Int) * vk + (s : Int) * ft.extent := by
  cases ft with
  | mk c ds ls e vb' vs' vk' vf st =>
      simp only [hvectorRaw, blockInstances, List.mem_flatMap, List.mem_map,
        List.mem_range, Fieldtype.extent, Int.toNat_natCast, Bool.false_eq_true,
        if_false, eq_comm]

/-- The instance walk of the slab layout the builder attaches to a face entry
covers exactly the sites of the corresponding slab, scaled by the site
extent. -/
lemma entry_slab_char (lat : Lattice) (ft : Fieldtype) (d : Fin 3) (lo : Nat)
    (hw : 1 ≤ lat.halo_size) (hext : 0 < ft.extent)
    (hlo : lo + lat.halo_size ≤ hgrid lat d) (a : Int) :
    (a ∈ blockInstances
        (hvectorRaw (nbOf lat d : Int)
          ((lat.halo_size * strideOf lat d : Nat) : Int)
          (((strideOf lat d * hgrid lat d : Nat) : Int) * ft.extent) ft)
        ((ft.extent.toNat * (strideOf lat d * lo) : Nat) : Int)) ↔
      ∃ s : Nat, inSlabSite lat d lo lat.halo_size s ∧
        a = ft.extent * (s : Int) := by
  have hoff : ((ft.extent.toNat * (strideOf lat d * lo) : Nat) : Int)
      = ft.extent * ((strideOf lat d * lo : Nat) : Int) := by
    push_cast [Int.toNat_of_nonneg hext.le]
    ring
  rw [mem_blockInstances_hvector, hoff]
  have hchar := slab_char (strideOf lat d) (hgrid lat d) (nbOf lat d)
    lat.halo_size lo ft.extent a (strideOf_pos lat d hw) hlo hext
  rw [hchar]
  simp only [inSlabSite, siteCoord, strideOf_mul]

/-! ### Frame property of the plan execution -/

lemma foldl_upd_pairs_not_mem (g : Int → Int) (a : Int) :
    ∀ (l : List (Int × Int)) (b : Int → Int), (∀ p ∈ l, p.1 ≠ a) →
      (l.foldl (fun acc pr => upd acc pr.1 (g pr.2)) b) a = b a := by
  intro l
  induction l with
  | nil => intro b _; rfl
  | cons p t ih =>
      intro b h
      simp only [List.foldl_cons]
      rw [ih _ fun q hq => h q (List.mem_cons_of_mem _ hq)]
      have hne : a ≠ p.1 := fun heq => h p (List.mem_cons_self _ _) heq.symm
      simp [upd, hne]

lemma foldl_upd_not_mem (g : Int → Int) (a : Int) :
    ∀ (l : List Int) (b : Int → Int), a ∉ l →
      (l.foldl (fun acc x => upd acc x (g x)) b) a = b a := by
  intro l
  induction l with
  | nil => intro b _; rfl
  | cons x t ih =>
      intro b h
      simp only [List.foldl_cons]
      rw [ih _ fun hq => h (List.mem_cons_of_mem _ hq)]
      have hne : a ≠ x := fun heq => h (heq ▸ List.mem_cons_self _ _)
      simp [upd, hne]

/-- A transfer leaves every byte outside its destination region unchanged; in
particular an open boundary or a pure send writes nothing. -/
lemma applyEntry_not_mem (b inb : Int → Int) (e : HaloInfo) (a : Int)
    (h : a ∉ destWrites e) : applyEntry b inb e a = b a := by
  by_cases h0 : e.type = HALO_LOCL
  · have hd : destWrites e = addrList e.fieldtype (e.r_offset : Int) := by
      unfold destWrites
      rw [if_pos (Or.inl h0)]
    rw [hd] at h
    unfold applyEntry
    rw [if_pos h0]
    apply foldl_upd_pairs_not_mem
    intro p hp heq
    exact h (heq ▸ (List.of_mem_zip hp).1)
  · by_cases h1 : e.type = HALO_SENDRECV ∨ e.type = HALO_RECV
    · have hd : destWrites e = addrList e.fieldtype (e.r_offset : Int) := by
        unfold destWrites
        rw [if_pos (Or.inr h1)]
      rw [hd] at h
      unfold applyEntry
      rw [if_neg h0, if_pos h1]
      exact foldl_upd_not_mem inb a _ b h
    · unfold applyEntry
      rw [if_neg h0, if_neg h1]

lemma enumFrom_foldl_frame (inbound : Nat → Int → Int) (a : Int) :
    ∀ (l : List HaloInfo) (k : Nat) (buf : Int → Int),
      a ∉ l.flatMap destWrites →
      ((l.enumFrom k).foldl (fun b pr => applyEntry b (inbound pr.1) pr.2) buf) a
        = buf a := by
  intro l
  induction l with
  | nil => intro k buf _; rfl
  | cons e t ih =>
      intro k buf h
      have h1 : a ∉ destWrites e := fun hm =>
        h (List.mem_flatMap.mpr ⟨e, List.mem_cons_self _ _, hm⟩)
      have h2 : a ∉ t.flatMap destWrites := fun hm => by
        rcases List.mem_flatMap.mp hm with ⟨e', he', hm'⟩
        exact h (List.mem_flatMap.mpr ⟨e', List.mem_cons_of_mem _ he', hm'⟩)
      simp only [List.enumFrom, List.foldl_cons]
      rw [ih (k + 1) _ h2]
      exact applyEntry_not_mem buf (inbound k) e a h1

/-- Executing a plan leaves every byte outside the union of the destination
regions of its communicating entries unchanged. -/
lemma halo_communication_frame (hc : HaloCommunicator)
    (inbound : Nat → Int → Int) (buf : Int → Int) (a : Int)
    (h : a ∉ writeAddrs hc) : halo_communication hc inbound buf a = buf a := by
  unfold halo_communication
  unfold writeAddrs at h
  have := enumFrom_foldl_frame inbound a hc.halo_info 0 buf h
  simpa [List.enum] using this

/-! ### Claims -/

/-- C1: whenever `prepare_halo_communication` succeeds, the transfer sequence
of the produced plan is exactly the six face entries in dimension-major,
face-minor order: dimension 0 low, dimension 0 high, dimension 1 low,
dimension 1 high, dimension 2 low, dimension 2 high. -/
theorem C1_plan_dimension_major_order (hc hc' : HaloCommunicator) (lat : Lattice)
    (ft : Fieldtype) (ng np : Fin 3 → Nat)
    (h : prepare_halo_communication hc lat ft ng np = .ok hc') :
    hc'.halo_info =
      [buildEntry lat ft ng np 0 0, buildEntry lat ft ng np 0 1,
       buildEntry lat ft ng np 1 0, buildEntry lat ft ng np 1 1,
       buildEntry lat ft ng np 2 0, buildEntry lat ft ng np 2 1] := by
  rw [prepare_ok_elim h]
  rfl

theorem C1_plan_dimension_major_order_witness :
    (buildPlan latW fieldtype_double ngW npW).halo_info =
      [buildEntry latW fieldtype_double ngW npW 0 0,
       buildEntry latW fieldtype_double ngW npW 0 1,
       buildEntry latW fieldtype_double ngW npW 1 0,
       buildEntry latW fieldtype_double ngW npW 1 1,
       buildEntry latW fieldtype_double ngW npW 2 0,
       buildEntry latW fieldtype_double ngW npW 2 1] :=
  C1_plan_dimension_major_order (HaloCommunicator.construct 0) _ latW
    fieldtype_double ngW npW rfl

/-- C3: releasing a plan is idempotent and total: releasing an
already-released plan is a state no-op that frees nothing, and releasing a
never-built (constructor-fresh) plan frees nothing. -/
theorem C3_release_idempotent_total :
    ∀ hc : HaloCommunicator,
      (release_halo_communication (release_halo_communication hc).1).1 =
        (release_halo_communication hc).1 ∧
      (release_halo_communication (release_halo_communication hc).1).2 = [] ∧
      ∀ n : Int, (release_halo_communication (HaloCommunicator.construct n)).2 = [] :=
  fun _ => ⟨rfl, rfl, fun _ => rfl⟩

/-- C4: both layout composition operations fail with `InvalidLayout`, and
hence produce no new descriptor, whenever the block count is non-positive, the
stride is non-positive, or the sub-descriptor is null. -/
theorem C4_compose_invalid_layout :
    ∀ (vb vs vk : Int) (old : Option Fieldtype),
      (vb ≤ 0 ∨ vs ≤ 0 ∨ old = none) →
      halo_create_field_vector vb vs vk old = .error .InvalidLayout ∧
      halo_create_field_hvector vb vs vk old = .error .InvalidLayout := by
  intro vb vs vk old h
  cases old with
  | none => exact ⟨rfl, rfl⟩
  | some sub =>
      have h' : vb ≤ 0 ∨ vs ≤ 0 := by
        rcases h with h | h | h
        · exact Or.inl h
        · exact Or.inr h
        · exact absurd h (by simp)
      constructor <;>
        simp [halo_create_field_vector, halo_create_field_hvector, h']

theorem C4_compose_invalid_layout_witness :
    halo_create_field_vector 0 1 1 (some fieldtype_double) = .error .InvalidLayout ∧
    halo_create_field_hvector 0 1 1 (some fieldtype_double) = .error .InvalidLayout :=
  C4_compose_invalid_layout 0 1 1 (some fieldtype_double) (Or.inl (by decide))

/-- C5: when some local extent is smaller than the halo width, or the process
grid does not evenly divide some global extent, the builder fails with
`InvalidGeometry` before assembling any transfer, producing no plan. -/
theorem C5_invalid_geometry (hc : HaloCommunicator) (lat : Lattice)
    (ft : Fieldtype) (ng np : Fin 3 → Nat)
    (h : (∃ d : Fin 3, lat.grid d < lat.halo_size) ∨
         (∃ d : Fin 3, lat.global_grid d % ng d ≠ 0)) :
    prepare_halo_communication hc lat ft ng np = .error .InvalidGeometry := by
  have hg : geometry_ok lat ng = false := by
    unfold geometry_ok
    simp only [decide_eq_false_iff_not]
    intro hall
    rcases h with ⟨d, hd⟩ | ⟨d, hd⟩
    · exact absurd (hall d).1 (by omega)
    · exact hd (hall d).2
  unfold prepare_halo_communication
  simp [hg]

theorem C5_invalid_geometry_witness :
    prepare_halo_communication (HaloCommunicator.construct 0) latBad
      fieldtype_double ![1, 1, 1] ![0, 0, 0] = .error .InvalidGeometry :=
  C5_invalid_geometry (HaloCommunicator.construct 0) latBad fieldtype_double
    ![1, 1, 1] ![0, 0, 0] (Or.inl ⟨0, by decide⟩)

/-- C10: the header constructor `HaloCommunicator(n)` stores `n` in `num` and
leaves `halo_info` empty, so `num = halo_info.size()` fails at construction
for every nonzero `n`; the consistency equation holds for every plan
`prepare_halo_communication` builds. -/
theorem C10_construct_num_mismatch :
    ∀ n : Int, (HaloCommunicator.construct n).num = n ∧
      (HaloCommunicator.construct n).halo_info = [] ∧
      (n ≠ 0 → (HaloCommunicator.construct n).num ≠
        ((HaloCommunicator.construct n).halo_info.length : Int)) ∧
      ∀ (hc hc' : HaloCommunicator) (lat : Lattice) (ft : Fieldtype)
        (ng np : Fin 3 → Nat),
        prepare_halo_communication hc lat ft ng np = .ok hc' →
        hc'.num = (hc'.halo_info.length : Int) := by
  intro n
  refine ⟨rfl, rfl, ?_, ?_⟩
  · intro hn
    simpa [HaloCommunicator.construct] using hn
  · intro hc hc' lat ft ng np h
    rw [prepare_ok_elim h]
    rfl

theorem C10_construct_num_mismatch_witness :
    (HaloCommunicator.construct 5).num ≠
      ((HaloCommunicator.construct 5).halo_info.length : Int) ∧
    (buildPlan latW fieldtype_double ngW npW).num =
      ((buildPlan latW fieldtype_double ngW npW).halo_info.length : Int) :=
  ⟨(C10_construct_num_mismatch 5).2.2.1 (by decide),
   (C10_construct_num_mismatch 5).2.2.2 (HaloCommunicator.construct 0) _ latW
     fieldtype_double ngW npW rfl⟩

/-- C2: on every periodic axis of process-grid extent one, each of the two
face entries of a successfully built plan is a local copy (`HALO_LOCL`) with
equal source and destination process, whose layout, placed at the entry's send
offset, walks exactly the slab of `halo_size` interior planes on the opposite
side of the local buffer, and, placed at the receive offset, walks exactly the
face's halo slab of `halo_size` planes. -/
theorem C2_local_copy_slab (hc hc' : HaloCommunicator) (lat : Lattice)
    (ft : Fieldtype) (ng np : Fin 3 → Nat) (d : Fin 3) (lr : Fin 2)
    (hw : 1 ≤ lat.halo_size) (hext : 0 < ft.extent)
    (hper : lat.periodic d = true) (hone : ng d = 1) (hpos : np d = 0)
    (h : prepare_halo_communication hc lat ft ng np = .ok hc') :
    ((hc'.halo_info.getD (2 * d.val + lr.val) default).type = HALO_LOCL ∧
     (hc'.halo_info.getD (2 * d.val + lr.val) default).source_node =
       (hc'.halo_info.getD (2 * d.val + lr.val) default).dest_node) ∧
    (∀ a : Int,
      a ∈ blockInstances
          (hc'.halo_info.getD (2 * d.val + lr.val) default).fieldtype
          ((hc'.halo_info.getD (2 * d.val + lr.val) default).s_offset : Int) ↔
        ∃ s : Nat,
          inSlabSite lat d (if lr = 0 then lat.grid d else lat.halo_size)
            lat.halo_size s ∧ a = ft.extent * (s : Int)) ∧
    (∀ a : Int,
      a ∈ blockInstances
          (hc'.halo_info.getD (2 * d.val + lr.val) default).fieldtype
          ((hc'.halo_info.getD (2 * d.val + lr.val) default).r_offset : Int) ↔
        ∃ s : Nat,
          inSlabSite lat d
            (if lr = 0 then 0 else lat.halo_size + lat.grid d)
            lat.halo_size s ∧ a = ft.extent * (s : Int)) := by
  rw [prepare_ok_elim h, buildPlan_getD,
    buildEntry_locl lat ft ng np d lr hper hone hpos]
  refine ⟨⟨rfl, rfl⟩, ?_, ?_⟩
  · intro a
    exact entry_slab_char lat ft d _ hw hext
      (by unfold hgrid; split <;> omega) a
  · intro a
    exact entry_slab_char lat ft d _ hw hext
      (by unfold hgrid; split <;> omega) a

theorem C2_local_copy_slab_witness :
    ((((buildPlan latW fieldtype_double ngW npW).halo_info.getD 0
        default).type = HALO_LOCL) ∧
      (((buildPlan latW fieldtype_double ngW npW).halo_info.getD 0
          default).source_node =
        ((buildPlan latW fieldtype_double ngW npW).halo_info.getD 0
          default).dest_node)) ∧
    (16 : Int) ∈ blockInstances
        ((buildPlan latW fieldtype_double ngW npW).halo_info.getD 0
          default).fieldtype
        (((buildPlan latW fieldtype_double ngW npW).halo_info.getD 0
          default).s_offset : Int) ∧
    (0 : Int) ∈ blockInstances
        ((buildPlan latW fieldtype_double ngW npW).halo_info.getD 0
          default).fieldtype
        (((buildPlan latW fieldtype_double ngW npW).halo_info.getD 0
          default).r_offset : Int) :=
  ⟨(C2_local_copy_slab (HaloCommunicator.construct 0) _ latW fieldtype_double
      ngW npW 0 0 (by decide) (by decide) (by decide) (by decide) (by decide)
      rfl).1,
   ((C2_local_copy_slab (HaloCommunicator.construct 0) _ latW fieldtype_double
      ngW npW 0 0 (by decide) (by decide) (by decide) (by decide) (by decide)
      rfl).2.1 16).mpr ⟨2, by decide, by decide⟩,
   ((C2_local_copy_slab (HaloCommunicator.construct 0) _ latW fieldtype_double
      ngW npW 0 0 (by decide) (by decide) (by decide) (by decide) (by decide)
      rfl).2.2 0).mpr ⟨0, by decide, by decide⟩⟩

/-- C6 counterexample: composing the double base descriptor into a vector with
block count 1 but stride 2 walks byte 8, which the un-composed base descriptor
does not touch, so block count 1 alone does not give semantic identity. -/
theorem C6_block_count_one_counterexample :
    (halo_create_field_vector 1 2 1 (some fieldtype_double)).toOption.map
        (fun t => decide ((8 : Int) ∈ addrList t 0)) = some true ∧
    ¬ (8 : Int) ∈ addrList fieldtype_double 0 := by
  decide

/-- C6 (amended): vector composition with block count 1 and stride 1 yields a
descriptor semantically identical to the un-composed base descriptor: at every
placement the walk touches exactly the same byte addresses, and the extents
agree.  (With block count 1 but stride greater than 1 the composed walk covers
stride-many copies of the base, so the stride-1 hypothesis is necessary.) -/
theorem C6_identity_law (vk : Int) (sub nt : Fieldtype)
    (h : halo_create_field_vector 1 1 vk (some sub) = .ok nt) :
    (∀ off : Int, addrList nt off = addrList sub off) ∧
      nt.extent = sub.extent := by
  have hnt : nt = vectorRaw 1 1 vk sub := by
    unfold halo_create_field_vector at h
    simp at h
    exact h.symm
  subst hnt
  constructor
  · intro off
    cases sub with
    | mk c ds ls e vb vs vk' vf st =>
        have hr : List.range 1 = [0] := rfl
        simp [vectorRaw, addrList, Fieldtype.extent, Fieldtype.count,
          Fieldtype.disps, Fieldtype.lengths, hr]
  · cases sub with
    | mk c ds ls e vb vs vk' vf st =>
        simp [vectorRaw, Fieldtype.extent]

theorem C6_identity_law_witness :
    addrList (vectorRaw 1 1 1 fieldtype_double) 0 =
      addrList fieldtype_double 0 ∧
    (vectorRaw 1 1 1 fieldtype_double).extent = fieldtype_double.extent :=
  ⟨(C6_identity_law 1 fieldtype_double (vectorRaw 1 1 1 fieldtype_double) rfl).1 0,
   (C6_identity_law 1 fieldtype_double (vectorRaw 1 1 1 fieldtype_double) rfl).2⟩

/-- C7 counterexample: in the section-8 scenario (1-by-1-by-N periodic
lattice, two processes along dimension 2, halo width 1, double field) the
built plan has two fused send-and-receive entries on the split axis and no
entry of pure send kind or pure receive kind, not one of each. -/
theorem C7_split_axis_counterexample :
    (prep7.toOption.map fun hc => hc.halo_info.map fun e => e.type) =
      some [HALO_LOCL, HALO_LOCL, HALO_LOCL, HALO_LOCL,
        HALO_SENDRECV, HALO_SENDRECV] ∧
    ¬ (prep7.toOption.map fun hc =>
        (hc.halo_info.map fun e => e.type).count HALO_SEND) = some 1 ∧
    ¬ (prep7.toOption.map fun hc =>
        (hc.halo_info.map fun e => e.type).count HALO_RECV) = some 1 := by
  refine ⟨by decide, by decide, by decide⟩

/-- C7 (amended): for a 1-by-1-by-N lattice, periodic on all axes, split into
2 processes along dimension 2, halo width 1, the plan built for either
process consists of 4 local-copy transfers (dimensions 0 and 1, both faces)
followed by 2 fused send-and-receive transfers on the split axis, each
exchanging with the other process. -/
theorem C7_split_axis_kinds (hc hc' : HaloCommunicator) (m n pz : Nat)
    (ft : Fieldtype) (hpz : pz < 2)
    (h : prepare_halo_communication hc
        ⟨![1, 1, m], ![1, 1, n], 1, ![true, true, true]⟩ ft
        ![1, 1, 2] ![0, 0, pz] = .ok hc') :
    (hc'.halo_info.map fun e => e.type) =
      [HALO_LOCL, HALO_LOCL, HALO_LOCL, HALO_LOCL,
        HALO_SENDRECV, HALO_SENDRECV] ∧
    (hc'.halo_info.getD 4 default).source_node = 1 - pz ∧
    (hc'.halo_info.getD 4 default).dest_node = 1 - pz ∧
    (hc'.halo_info.getD 5 default).source_node = 1 - pz ∧
    (hc'.halo_info.getD 5 default).dest_node = 1 - pz := by
  rw [prepare_ok_elim h]
  interval_cases pz <;> exact ⟨rfl, rfl, rfl, rfl, rfl⟩

theorem C7_split_axis_kinds_witness :
    ((buildPlan lat7 fieldtype_double ng7 ![0, 0, 0]).halo_info.map
        fun e => e.type) =
      [HALO_LOCL, HALO_LOCL, HALO_LOCL, HALO_LOCL,
        HALO_SENDRECV, HALO_SENDRECV] ∧
    ((buildPlan lat7 fieldtype_double ng7 ![0, 0, 0]).halo_info.getD 4
        default).source_node = 1 ∧
    ((buildPlan lat7 fieldtype_double ng7 ![0, 0, 0]).halo_info.getD 4
        default).dest_node = 1 ∧
    ((buildPlan lat7 fieldtype_double ng7 ![0, 0, 0]).halo_info.getD 5
        default).source_node = 1 ∧
    ((buildPlan lat7 fieldtype_double ng7 ![0, 0, 0]).halo_info.getD 5
        default).dest_node = 1 :=
  C7_split_axis_kinds (HaloCommunicator.construct 0) _ 2 4 0 fieldtype_double
    (by decide) rfl

/-- C8 counterexample: in the `latB` configuration, the dimension-2 low face
is neither periodic nor split and its entry is `HALO_OPEN`, and byte 0 lies in
that face's halo slab; yet executing the plan on the identity byte buffer
changes byte 0 from 0 to 8, because the dimension-0 local copy's destination
slab spans the whole extended cross-section and covers that corner byte.  So
the halo slab of an open face is not left byte-for-byte unchanged. -/
theorem C8_open_boundary_counterexample :
    (prepB.toOption.map fun hc => (hc.halo_info.getD 4 default).type) =
      some HALO_OPEN ∧
    inSlabByte latB 2 0 1 8 0 ∧
    (prepB.toOption.map fun hc =>
      halo_communication hc (fun _ _ => 0) (fun x => x) 0) = some 8 ∧
    ¬ ((0 : Int) = 8) :=
  ⟨by decide, ⟨0, by decide, by decide, by decide⟩, by decide, by decide⟩

/-- C8 (amended): a face of an axis that is neither periodic nor split yields
an open-boundary entry (`HALO_OPEN`), and after execution every byte of that
face's halo slab that does not lie in the destination region of one of the
plan's communicating entries is unchanged.  (Corner and edge bytes of the slab
shared with another face's destination slab may be rewritten by that face's
transfer, so the unqualified byte-for-byte claim fails.) -/
theorem C8_open_boundary_frame (hc hc' : HaloCommunicator) (lat : Lattice)
    (ft : Fieldtype) (ng np : Fin 3 → Nat) (d : Fin 3) (lr : Fin 2)
    (hper : lat.periodic d = false) (hone : ng d = 1) (hpos : np d = 0)
    (h : prepare_halo_communication hc lat ft ng np = .ok hc') :
    (hc'.halo_info.getD (2 * d.val + lr.val) default).type = HALO_OPEN ∧
    ∀ (a : Int) (inbound : Nat → Int → Int) (buf : Int → Int),
      inSlabByte lat d (if lr = 0 then 0 else lat.halo_size + lat.grid d)
        lat.halo_size ft.extent a →
      a ∉ writeAddrs hc' →
      halo_communication hc' inbound buf a = buf a := by
  constructor
  · rw [prepare_ok_elim h, buildPlan_getD]
    exact buildEntry_open lat ft ng np d lr hper hone hpos
  · intro a inbound buf _ hna
    exact halo_communication_frame hc' inbound buf a hna

theorem C8_open_boundary_frame_witness :
    ((buildPlan latB fieldtype_double ngB ![0, 0, 0]).halo_info.getD 4
      default).type = HALO_OPEN ∧
    halo_communication (buildPlan latB fieldtype_double ngB ![0, 0, 0])
      (fun _ _ => 0) (fun x => x) 8 = (fun (x : Int) => x) 8 :=
  ⟨(C8_open_boundary_frame (HaloCommunicator.construct 0) _ latB
      fieldtype_double ngB ![0, 0, 0] 2 0 (by decide) (by decide) (by decide)
      rfl).1,
   (C8_open_boundary_frame (HaloCommunicator.construct 0) _ latB
      fieldtype_double ngB ![0, 0, 0] 2 0 (by decide) (by decide) (by decide)
      rfl).2 8 (fun _ _ => 0) (fun x => x)
      ⟨1, by decide, by decide, by decide⟩ (by decide)⟩

/-- C9 counterexample: an absolute-stride composition whose byte stride is
smaller than the bytes covered by one block breaks the extent invariant: with
block count 1, stride 1 and byte stride 1 over the double base descriptor the
covered bytes sum to 8 while the extent is 1. -/
theorem C9_extent_invariant_counterexample :
    (halo_create_field_hvector 1 1 1 (some fieldtype_double)).toOption.map
        (fun t => (t.lengths.sum, t.extent)) = some (8, 1) ∧
    ¬ ((8 : Int) ≤ 1) := by
  decide

/-- C9 (amended): the base double descriptor satisfies the extent invariant
(extent at least the bytes covered by the (displacement, length) pairs); a
contiguous vector composition always preserves it and has extent block-count
times stride in units of the sub-descriptor's extent; an absolute-stride
composition has extent derived from the explicit byte stride (block count
times byte stride) and preserves the invariant provided that product is at
least the sub-descriptor's extent. -/
theorem C9_extent_invariant :
    covOK fieldtype_double ∧
    (∀ (vb vs vk : Int) (sub nt : Fieldtype), covOK sub → 0 ≤ sub.extent →
      halo_create_field_vector vb vs vk (some sub) = .ok nt →
      covOK nt ∧ nt.extent = vb * vs * sub.extent) ∧
    (∀ (vb vs vk : Int) (sub nt : Fieldtype), covOK sub →
      sub.extent ≤ vb * vk →
      halo_create_field_hvector vb vs vk (some sub) = .ok nt →
      covOK nt ∧ nt.extent = vb * vk) := by
  refine ⟨by decide, ?_, ?_⟩
  · intro vb vs vk sub nt hsub hnn h
    by_cases hc0 : vb ≤ 0 ∨ vs ≤ 0
    · simp [halo_create_field_vector, hc0] at h
    · simp only [halo_create_field_vector, if_neg hc0, Except.ok.injEq] at h
      subst h
      push_neg at hc0
      have h1 : (1 : Int) * 1 ≤ vb * vs := by
        have hb : (0 : Int) < vb := hc0.1
        have hs : (0 : Int) < vs := hc0.2
        nlinarith
      have h2 : sub.extent ≤ vb * vs * sub.extent := by
        have := mul_le_mul_of_nonneg_right h1 hnn
        simpa using this
      cases sub with
      | mk c ds ls e vb' vs' vk' vf st =>
          refine ⟨?_, rfl⟩
          unfold covOK at hsub ⊢
          simp only [vectorRaw, Fieldtype.lengths, Fieldtype.extent] at hsub h2 ⊢
          exact le_trans hsub h2
  · intro vb vs vk sub nt hsub hstr h
    by_cases hc0 : vb ≤ 0 ∨ vs ≤ 0
    · simp [halo_create_field_hvector, hc0] at h
    · simp only [halo_create_field_hvector, if_neg hc0, Except.ok.injEq] at h
      subst h
      cases sub with
      | mk c ds ls e vb' vs' vk' vf st =>
          refine ⟨?_, rfl⟩
          unfold covOK at hsub ⊢
          simp only [hvectorRaw, Fieldtype.lengths, Fieldtype.extent] at hsub hstr ⊢
          exact le_trans hsub hstr

theorem C9_extent_invariant_witness :
    (covOK (vectorRaw 2 1 1 fieldtype_double) ∧
      (vectorRaw 2 1 1 fieldtype_double).extent =
        2 * 1 * fieldtype_double.extent) ∧
    (covOK (hvectorRaw 1 1 8 fieldtype_double) ∧
      (hvectorRaw 1 1 8 fieldtype_double).extent = 1 * 8) :=
  ⟨C9_extent_invariant.2.1 2 1 1 fieldtype_double
      (vectorRaw 2 1 1 fieldtype_double) (by decide) (by decide) rfl,
   C9_extent_invariant.2.2 1 1 8 fieldtype_double
      (hvectorRaw 1 1 8 fieldtype_double) (by decide) (by decide) rfl⟩

end Halo
